import Mathlib

/-
Verification of the event-to-notification pipeline of
openshift-slack-notifications.

The program watches warning-level cluster events, reduces each event to a
fingerprint string, and posts a chat message unless the fingerprint matches
the one cached from the previous message.  Two listings of the program
exist: `main.go`, whose watch loop caches and compares the raw event
message, and the second listing, whose watch loop caches and compares the
reduced fingerprint produced by `buildCachedEvent`.

This file gives a shallow embedding of both listings.  Go string
primitives (`strings.Split`, `strings.HasPrefix`, `strings.Replace`,
`strings.Join`) are modelled as executable Lean functions over `List Char`
with the same semantics.  The watch-loop body is modelled as a step
function from a cache state and one delivered event to the next cache
state together with the list of observable effects (cache read, reducer
call, notifier call, cache write) the step performs, in program order.
Wall-clock instants are modelled as integers; `time.Time.After` is strict
`<`.  The notifier and the subscription driver are modelled over explicit
oracles for the outcomes of the external calls they make
(`json.Marshal`, `http.NewRequest`, `client.Do`, the watch-open call).
-/

set_option maxRecDepth 4000

/-- Character-level splitter behind `goSplit`: scans left to right and cuts
at each leftmost non-overlapping occurrence of `sep`, as Go's
`strings.Split` does for a non-empty separator.  `fuel` bounds the
recursion depth; every call site passes fuel larger than the input length,
so the fuel-exhausted branch (which returns the remaining input unsplit,
exactly what an absent separator yields) is never reached. -/
def splitFuel (sep : List Char) : Nat → List Char → List (List Char)
  | 0, s => [s]
  | _ + 1, [] => [[]]
  | fuel + 1, c :: cs =>
    if sep.isPrefixOf (c :: cs) then
      [] :: splitFuel sep fuel (List.drop sep.length (c :: cs))
    else
      match splitFuel sep fuel cs with
      | [] => [[c]]
      | r :: rs => (c :: r) :: rs

/-- Go `strings.Split(s, sep)` (unlimited count).  For an empty separator Go
splits into individual characters; the program only ever splits on the
literals `"-"` and `": Get http://10."`. -/
def goSplit (s sep : String) : List String :=
  if sep.data = [] then s.data.map fun c => String.mk [c]
  else (splitFuel sep.data (s.data.length + 1) s.data).map String.mk

/-- Go `strings.HasPrefix(s, p)`. -/
def goHasPrefix (s p : String) : Bool := p.data.isPrefixOf s.data

/-- Character-level worker behind `goReplaceAll`, with the same fuel
discipline as `splitFuel`. -/
def replaceFuel (pat rep : List Char) : Nat → List Char → List Char
  | 0, s => s
  | _ + 1, [] => []
  | fuel + 1, c :: cs =>
    if pat.isPrefixOf (c :: cs) then
      rep ++ replaceFuel pat rep fuel (List.drop pat.length (c :: cs))
    else
      c :: replaceFuel pat rep fuel cs

/-- Go `strings.Replace(s, old, new, -1)`: replace every non-overlapping
occurrence.  The program only uses it with `old = " "`, `new = "_"`. -/
def goReplaceAll (s old new : String) : String :=
  if old.data = [] then s
  else String.mk (replaceFuel old.data new.data (s.data.length + 1) s.data)

/-- Go `strings.Join(elems, sep)`. -/
def goJoin (elems : List String) (sep : String) : String :=
  match elems with
  | [] => ""
  | x :: xs => xs.foldl (fun acc e => acc ++ sep ++ e) x

/-- The fields of `event.InvolvedObject` the program reads. -/
structure ObjectReference where
  Namespace : String
  Kind : String
  Name : String
  deriving DecidableEq

/-- The fields of a `v1.Event` the pipeline reads.  `FirstTimestamp` is the
event's occurrence instant, modelled as an integer. -/
structure Event where
  InvolvedObject : ObjectReference
  Reason : String
  Message : String
  FirstTimestamp : Int
  deriving DecidableEq

/-- The `s[0]` taken from `s := strings.Split(event.InvolvedObject.Name, "-")`
in `buildCachedEvent` (the code's "deduct container name" step).  Go's
`Split` never returns an empty slice for a non-empty separator
(`goSplit_ne_nil` below), so the index cannot panic; `headD` with an
arbitrary default is therefore an exact model. -/
def containerName (name : String) : String := (goSplit name "-").headD ""

/-- The message component appended by `buildCachedEvent`: for a message
starting with `"Readiness"` or `"Liveness"`, the part before the first
`": Get http://10."` with spaces replaced by underscores; otherwise the
message verbatim. -/
def messageComponent (msg : String) : String :=
  if goHasPrefix msg "Readiness" || goHasPrefix msg "Liveness" then
    goReplaceAll ((goSplit msg ": Get http://10.").headD "") " " "_"
  else msg

/-- `buildCachedEvent` from the second listing: the fingerprint string
cached for dedup, `strings.Join` of namespace, first hyphen-segment of the
subject name, and the (possibly truncated and space-normalized) message,
with separator `"_"`. -/
def buildCachedEvent (event : Event) : String :=
  goJoin [event.InvolvedObject.Namespace,
          containerName event.InvolvedObject.Name,
          messageComponent event.Message] "_"

/-- Defensive variant of `buildCachedEvent` that returns `none` exactly
where the Go code would panic on an out-of-bounds `s[0]` index, i.e. if
either `strings.Split` call could return an empty slice.  Used to state
that the reducer never panics. -/
def buildCachedEventChecked (event : Event) : Option String :=
  match (goSplit event.InvolvedObject.Name "-").head? with
  | none => none
  | some cn =>
    if goHasPrefix event.Message "Readiness" || goHasPrefix event.Message "Liveness" then
      match (goSplit event.Message ": Get http://10.").head? with
      | none => none
      | some p =>
        some (goJoin [event.InvolvedObject.Namespace, cn, goReplaceAll p " " "_"] "_")
    else
      some (goJoin [event.InvolvedObject.Namespace, cn, event.Message] "_")

/-- Observable effects of one iteration of the watch-loop body, in program
order: reading the dedup cache, calling the fingerprint reducer, invoking
the notifier, writing the dedup cache. -/
inductive Effect where
  | cacheGet : Effect
  | reduce : Event → Effect
  | notify : Event → Effect
  | cacheSet : String → Effect
  deriving DecidableEq

/-- One iteration of the `for watchEvent := range watcher.ResultChan()`
body of `watchEvents` in the second listing (the fingerprint-caching
loop): given the loop's recorded start time, the current dedup-cache slot
`last_slack_event`, and the delivered event, it returns the new slot value
and the effects performed, in program order. -/
def processEvent (startTime : Int) (cache : Option String) (event : Event) :
    Option String × List Effect :=
  if startTime < event.FirstTimestamp then
    match cache with
    | none =>
      let currentMessage := buildCachedEvent event
      (some currentMessage,
        [Effect.cacheGet, Effect.notify event, Effect.reduce event,
         Effect.cacheSet currentMessage])
    | some cachedMessage =>
      let currentMessage := buildCachedEvent event
      if cachedMessage ≠ currentMessage then
        (some currentMessage,
          [Effect.cacheGet, Effect.reduce event, Effect.notify event,
           Effect.cacheSet currentMessage])
      else
        (cache, [Effect.cacheGet, Effect.reduce event])
  else (cache, [])

/-- Processing of a whole delivered-event sequence by the fingerprint
loop, threading the cache and concatenating the effects. -/
def processAll (startTime : Int) : Option String → List Event → Option String × List Effect
  | cache, [] => (cache, [])
  | cache, e :: es =>
    ((processAll startTime (processEvent startTime cache e).1 es).1,
      (processEvent startTime cache e).2 ++
        (processAll startTime (processEvent startTime cache e).1 es).2)

/-- The event of the last notifier invocation in an effect list, if any. -/
def lastNotified : List Effect → Option Event
  | [] => none
  | eff :: rest =>
    match lastNotified rest with
    | some e => some e
    | none =>
      match eff with
      | Effect.notify e => some e
      | _ => none

/-- Whether an effect list contains a notifier invocation. -/
def stepNotifies (effects : List Effect) : Bool :=
  effects.any fun eff =>
    match eff with
    | Effect.notify _ => true
    | _ => false

/-- One iteration of the watch-loop body of `watchEvents` in `main.go`
(the raw-message-caching loop): the cache slot holds the previous raw
`event.Message` and is compared against the raw message. -/
def processEventMain (startTime : Int) (cache : Option String) (event : Event) :
    Option String × List Effect :=
  if startTime < event.FirstTimestamp then
    match cache with
    | none =>
      (some event.Message,
        [Effect.cacheGet, Effect.notify event, Effect.cacheSet event.Message])
    | some msg =>
      if msg ≠ event.Message then
        (some event.Message,
          [Effect.cacheGet, Effect.notify event, Effect.cacheSet event.Message])
      else
        (cache, [Effect.cacheGet])
  else (cache, [])

/-- Notify-versus-suppress decisions of the `main.go` loop along an event
sequence. -/
def decisionsMain (startTime : Int) : Option String → List Event → List Bool
  | _, [] => []
  | cache, e :: es =>
    stepNotifies (processEventMain startTime cache e).2 ::
      decisionsMain startTime (processEventMain startTime cache e).1 es

/-- Notify-versus-suppress decisions of the fingerprint loop along an
event sequence. -/
def decisionsPart (startTime : Int) : Option String → List Event → List Bool
  | _, [] => []
  | cache, e :: es =>
    stepNotifies (processEvent startTime cache e).2 ::
      decisionsPart startTime (processEvent startTime cache e).1 es

/-- Outcome of the `json.Marshal(message)` call inside `notifySlack`. -/
inductive MarshalResult where
  | ok : String → MarshalResult
  | error : String → MarshalResult
  deriving DecidableEq

/-- Outcome of the `http.NewRequest` call inside `notifySlack`.  On error
Go returns a nil request together with the error. -/
inductive RequestResult where
  | ok : RequestResult
  | error : String → RequestResult
  deriving DecidableEq

/-- Outcome of the `client.Do(req)` call inside `notifySlack`. -/
inductive DoResult where
  | ok : DoResult
  | error : String → DoResult
  deriving DecidableEq

/-- How a `notifySlack` call ends: a normal return (the flag records
whether a transport failure was logged first) or a runtime panic carrying
the panic message. -/
inductive NotifyOutcome where
  | returned : Bool → NotifyOutcome
  | panicked : String → NotifyOutcome
  deriving DecidableEq

/-- Control flow of `notifySlack`, parameterized by the outcomes of its
three external calls.  A marshal error hits `panic(err)`.  An
`http.NewRequest` error is never checked: the code proceeds to
`req.Header.Set` on the nil request, a nil-pointer dereference panic.  A
`client.Do` error is logged (`"Unable to reach the server."`) and the
function falls off the end; a successful POST also just returns.  No
branch retries. -/
def notifySlack (marshal : MarshalResult) (newRequest : RequestResult)
    (doCall : DoResult) : NotifyOutcome :=
  match marshal with
  | MarshalResult.error e => NotifyOutcome.panicked e
  | MarshalResult.ok _ =>
    match newRequest with
    | RequestResult.error _ =>
      NotifyOutcome.panicked "invalid memory address or nil pointer dereference"
    | RequestResult.ok =>
      match doCall with
      | DoResult.error _ => NotifyOutcome.returned true
      | DoResult.ok => NotifyOutcome.returned false

/-- How one `watchEvents` call ends: the watch-open call either fails
(`watcher, err := ...Watch(...)`, then `panic(err.Error())`) or yields a
stream of events that is processed until the channel closes, after which
the function returns normally. -/
inductive WatchOutcome where
  | panicked : String → WatchOutcome
  | returned : WatchOutcome
  deriving DecidableEq

/-- Control flow of `watchEvents`, parameterized by the watch-open
outcome: an error hits the `panic(err.Error())` branch; a stream is
consumed to the end and the function returns. -/
def watchEventsOutcome (w : Except String (List Event)) : WatchOutcome :=
  match w with
  | Except.error e => WatchOutcome.panicked e
  | Except.ok _ => WatchOutcome.returned

/-- Fate of the process after one pass of the retry driver
`for { watchEvents(clientset); time.Sleep(5 * time.Second) }` in `main`:
either the driver reaches the sleep and re-enters `watchEvents` after the
fixed delay, or a panic escapes `watchEvents` — the goroutine has no
`recover`, so an escaping panic terminates the whole Go process. -/
inductive DriverOutcome where
  | processTerminated : String → DriverOutcome
  | resubscribeAfter : Nat → DriverOutcome
  deriving DecidableEq

/-- One pass of the outer retry driver in `main`. -/
def driverStep (w : Except String (List Event)) : DriverOutcome :=
  match watchEventsOutcome w with
  | WatchOutcome.panicked msg => DriverOutcome.processTerminated msg
  | WatchOutcome.returned => DriverOutcome.resubscribeAfter 5

/-- Go's string append is concatenation of the underlying character
lists. -/
theorem strDataAppend (a b : String) : (a ++ b).data = a.data ++ b.data := rfl

/-- String append is associative. -/
theorem strAppendAssoc (a b c : String) : (a ++ b) ++ c = a ++ (b ++ c) := by
  apply String.ext
  simp [strDataAppend, List.append_assoc]

/-- String append cancels on the left. -/
theorem strAppendLeftCancel (a b c : String) (h : a ++ b = a ++ c) : b = c := by
  apply String.ext
  have h2 := congrArg String.data h
  simp only [strDataAppend] at h2
  exact List.append_cancel_left h2

/-- Rebuilding a string from its character list is the identity. -/
theorem strMkData (s : String) : String.mk s.data = s := rfl

/-- `splitFuel` never returns an empty list: every branch produces at
least one (possibly empty) segment. -/
theorem splitFuel_ne_nil (sep : List Char) (fuel : Nat) (s : List Char) :
    splitFuel sep fuel s ≠ [] := by
  match fuel, s with
  | 0, s => simp [splitFuel]
  | _ + 1, [] => simp [splitFuel]
  | fuel + 1, c :: cs =>
    simp only [splitFuel]
    split
    · simp
    · split <;> simp

/-- Go's `strings.Split` never returns an empty slice for a non-empty
separator, so indexing the result at 0 cannot panic. -/
theorem goSplit_ne_nil (s sep : String) (h : sep.data ≠ []) : goSplit s sep ≠ [] := by
  simp only [goSplit, if_neg h]
  intro hc
  exact splitFuel_ne_nil sep.data (s.data.length + 1) s.data (List.map_eq_nil_iff.mp hc)

/-- When the separator occurs nowhere in the input, `splitFuel` returns
the whole input as the single segment, at every fuel value. -/
theorem splitFuel_of_no_occurrence (sep : List Char) (fuel : Nat) (s : List Char)
    (hs : ¬ sep <:+: s) : splitFuel sep fuel s = [s] := by
  induction fuel generalizing s with
  | zero => rfl
  | succ n ih =>
    match s with
    | [] => rfl
    | c :: cs =>
      have hp : sep.isPrefixOf (c :: cs) = false := by
        cases hb : sep.isPrefixOf (c :: cs) with
        | false => rfl
        | true => exact absurd (List.isPrefixOf_iff_prefix.mp hb).isInfix hs
      have hcs : ¬ sep <:+: cs := fun hin => hs (List.infix_cons hin)
      simp only [splitFuel, hp, Bool.false_eq_true, if_false]
      rw [ih cs hcs]

/-- When the separator occurs nowhere in the input, Go's `strings.Split`
degrades to returning the whole string as the only element. -/
theorem goSplit_of_no_occurrence (s sep : String) (hne : sep.data ≠ [])
    (h : ¬ sep.data <:+: s.data) : goSplit s sep = [s] := by
  simp only [goSplit, if_neg hne, splitFuel_of_no_occurrence sep.data _ s.data h,
    List.map_cons, List.map_nil, strMkData]

/-- The optional head of a non-empty list is its `headD`. -/
theorem head?_eq_headD {α : Type} (l : List α) (d : α) (h : l ≠ []) :
    l.head? = some (l.headD d) := by
  cases l with
  | nil => exact absurd rfl h
  | cons a t => rfl

/-- `strings.Join` of a three-element slice. -/
theorem goJoin_three (a b c sep : String) :
    goJoin [a, b, c] sep = a ++ sep ++ b ++ sep ++ c := by
  simp only [goJoin, List.foldl]

/-- The fingerprint of an event whose message is not a health-check
message: namespace, first hyphen-segment, and verbatim message joined by
underscores. -/
theorem buildCachedEvent_append (e : Event)
    (h1 : goHasPrefix e.Message "Readiness" = false)
    (h2 : goHasPrefix e.Message "Liveness" = false) :
    buildCachedEvent e =
      e.InvolvedObject.Namespace ++ "_" ++ containerName e.InvolvedObject.Name
        ++ "_" ++ e.Message := by
  rw [buildCachedEvent, messageComponent, h1, h2]
  simp only [Bool.or_false, Bool.false_eq_true, if_false]
  exact goJoin_three _ _ _ _

/-- The fingerprint of an event whose message is a health-check message:
the message component is the part before `": Get http://10."` with spaces
replaced by underscores. -/
theorem buildCachedEvent_health (e : Event)
    (h : goHasPrefix e.Message "Readiness" = true ∨ goHasPrefix e.Message "Liveness" = true) :
    buildCachedEvent e =
      e.InvolvedObject.Namespace ++ "_" ++ containerName e.InvolvedObject.Name ++ "_" ++
        goReplaceAll ((goSplit e.Message ": Get http://10.").headD "") " " "_" := by
  have hb : (goHasPrefix e.Message "Readiness" || goHasPrefix e.Message "Liveness") = true := by
    rcases h with h | h <;> simp [h]
  rw [buildCachedEvent, messageComponent, hb]
  simp only [if_true]
  exact goJoin_three _ _ _ _

/-- A stale event (not strictly after the start time) leaves the cache
unchanged and performs no effect at all. -/
theorem processEvent_stale (startTime : Int) (cache : Option String) (e : Event)
    (h : ¬ startTime < e.FirstTimestamp) : processEvent startTime cache e = (cache, []) := by
  simp [processEvent, h]

/-- After processing an event that passes the start-time filter, the cache
slot holds that event's fingerprint, whatever it held before. -/
theorem processEvent_pass_cache (startTime : Int) (cache : Option String) (e : Event)
    (h : startTime < e.FirstTimestamp) :
    (processEvent startTime cache e).1 = some (buildCachedEvent e) := by
  simp only [processEvent, if_pos h]
  cases cache with
  | none => rfl
  | some m =>
    by_cases hm : m = buildCachedEvent e
    · simp [hm]
    · simp [hm]

/-- For an event passing the start-time filter, the step invokes the
notifier exactly when the cache slot is absent or differs from the
event's fingerprint. -/
theorem processEvent_notifies_iff (startTime : Int) (cache : Option String) (e : Event)
    (h : startTime < e.FirstTimestamp) :
    (∃ x, Effect.notify x ∈ (processEvent startTime cache e).2) ↔
      (cache = none ∨ cache ≠ some (buildCachedEvent e)) := by
  simp only [processEvent, if_pos h]
  cases cache with
  | none => simp
  | some m =>
    by_cases hm : m = buildCachedEvent e
    · simp [hm]
    · simp [hm]

/-- Unfolding of `processAll` on a cons cell. -/
theorem processAll_cons (startTime : Int) (cache : Option String) (e : Event)
    (es : List Event) :
    processAll startTime cache (e :: es) =
      ((processAll startTime (processEvent startTime cache e).1 es).1,
        (processEvent startTime cache e).2 ++
          (processAll startTime (processEvent startTime cache e).1 es).2) := rfl

/-- The last notifier invocation in a concatenation is the one of the
second part, if any, else the one of the first part. -/
theorem lastNotified_append (a b : List Effect) :
    lastNotified (a ++ b) =
      match lastNotified b with
      | some e => some e
      | none => lastNotified a := by
  induction a with
  | nil =>
    simp only [List.nil_append]
    cases lastNotified b <;> rfl
  | cons eff rest ih =>
    simp only [List.cons_append, lastNotified, List.append_eq, ih]
    cases lastNotified b <;> cases lastNotified rest <;> rfl

/-- Per-step cache law: a step leaves the slot at the fingerprint of the
event it notified, or untouched when it notified nothing. -/
theorem processEvent_cache_lastNotified (startTime : Int) (cache : Option String)
    (e : Event) :
    (processEvent startTime cache e).1 =
      match lastNotified (processEvent startTime cache e).2 with
      | some x => some (buildCachedEvent x)
      | none => cache := by
  by_cases h : startTime < e.FirstTimestamp
  · simp only [processEvent, if_pos h]
    cases cache with
    | none => rfl
    | some m =>
      by_cases hm : m = buildCachedEvent e
      · simp [hm, lastNotified]
      · simp [hm, lastNotified]
  · simp [processEvent_stale startTime cache e h, lastNotified]

/-- Sequence-level cache law: after any event sequence the slot holds the
fingerprint of the most recently notified event, or the initial value if
nothing was notified. -/
theorem processAll_cache_lastNotified (startTime : Int) (events : List Event) :
    ∀ cache : Option String,
      (processAll startTime cache events).1 =
        match lastNotified (processAll startTime cache events).2 with
        | some x => some (buildCachedEvent x)
        | none => cache := by
  induction events with
  | nil => intro cache; rfl
  | cons e es ih =>
    intro cache
    rw [processAll_cons]
    simp only []
    rw [lastNotified_append, ih]
    cases hrest : lastNotified (processAll startTime (processEvent startTime cache e).1 es).2 with
    | some x => rfl
    | none => exact processEvent_cache_lastNotified startTime cache e

/-- C1: Deduplication collapse — for two consecutive events passing the
start-time filter that reduce to the same fingerprint, the step for the
second event invokes no notifier call and leaves the cached fingerprint
unchanged; and for any event passing the filter the notifier is invoked
exactly when the cache slot is absent or holds a different
fingerprint. -/
theorem dedupCollapse (startTime : Int) (cache : Option String) (e1 e2 : Event)
    (h1 : startTime < e1.FirstTimestamp) (h2 : startTime < e2.FirstTimestamp)
    (hfp : buildCachedEvent e1 = buildCachedEvent e2) :
    ((processEvent startTime (processEvent startTime cache e1).1 e2).1 =
        (processEvent startTime cache e1).1 ∧
      ∀ x, Effect.notify x ∉ (processEvent startTime (processEvent startTime cache e1).1 e2).2) ∧
    ∀ c, ((∃ x, Effect.notify x ∈ (processEvent startTime c e2).2) ↔
      (c = none ∨ c ≠ some (buildCachedEvent e2))) := by
  have hc1 : (processEvent startTime cache e1).1 = some (buildCachedEvent e1) :=
    processEvent_pass_cache startTime cache e1 h1
  refine ⟨⟨?_, ?_⟩, ?_⟩
  · rw [hc1, hfp]
    simp [processEvent, h2]
  · intro x
    rw [hc1, hfp]
    simp [processEvent, h2]
  · intro c
    exact processEvent_notifies_iff startTime c e2 h2

/-- Closed instance of `dedupCollapse`: a repeat of the CrashLoopBackOff
event one tick later triggers no second notifier call. -/
theorem dedupCollapse_witness :
    Effect.notify ⟨⟨"ns1", "Pod", "app-abc123"⟩, "BackOff", "CrashLoopBackOff", 11⟩ ∉
      (processEvent 0
        (processEvent 0 none
          ⟨⟨"ns1", "Pod", "app-abc123"⟩, "BackOff", "CrashLoopBackOff", 10⟩).1
        ⟨⟨"ns1", "Pod", "app-abc123"⟩, "BackOff", "CrashLoopBackOff", 11⟩).2 :=
  ((dedupCollapse 0 none
      ⟨⟨"ns1", "Pod", "app-abc123"⟩, "BackOff", "CrashLoopBackOff", 10⟩
      ⟨⟨"ns1", "Pod", "app-abc123"⟩, "BackOff", "CrashLoopBackOff", 11⟩
      (by decide) (by decide) rfl).1.2) _

/-- C2: Fingerprint format — for a message not beginning with "Readiness"
or "Liveness", the fingerprint is the namespace, the first hyphen-segment
of the subject name, and the verbatim message, joined with underscores;
in particular namespace "ns1", name "app-abc123", message
"CrashLoopBackOff" reduce to "ns1_app_CrashLoopBackOff". -/
theorem fingerprintFormat (e : Event)
    (h : goHasPrefix e.Message "Readiness" = false ∧
         goHasPrefix e.Message "Liveness" = false) :
    buildCachedEvent e =
      e.InvolvedObject.Namespace ++ "_" ++ containerName e.InvolvedObject.Name
        ++ "_" ++ e.Message ∧
    buildCachedEvent ⟨⟨"ns1", "Pod", "app-abc123"⟩, "BackOff", "CrashLoopBackOff", 10⟩ =
      "ns1_app_CrashLoopBackOff" :=
  ⟨buildCachedEvent_append e h.1 h.2, by decide⟩

/-- Closed instance of `fingerprintFormat` at the CrashLoopBackOff
event. -/
theorem fingerprintFormat_witness :
    buildCachedEvent ⟨⟨"ns1", "Pod", "app-abc123"⟩, "BackOff", "CrashLoopBackOff", 10⟩ =
      "ns1_app_CrashLoopBackOff" :=
  (fingerprintFormat ⟨⟨"ns1", "Pod", "app-abc123"⟩, "BackOff", "CrashLoopBackOff", 10⟩
    ⟨by decide, by decide⟩).2

/-- C3: Health-check truncation — two events with equal namespace, equal
first hyphen-segment, messages both beginning with "Readiness" (or both
with "Liveness") and agreeing before the first ": Get http://10.", get
the same fingerprint; concretely the two Readiness-probe messages against
different IPs collapse, with message component
"Readiness_probe_failed". -/
theorem healthCheckTruncation (e1 e2 : Event)
    (hns : e1.InvolvedObject.Namespace = e2.InvolvedObject.Namespace)
    (hseg : containerName e1.InvolvedObject.Name = containerName e2.InvolvedObject.Name)
    (hhc : (goHasPrefix e1.Message "Readiness" = true ∧
            goHasPrefix e2.Message "Readiness" = true) ∨
           (goHasPrefix e1.Message "Liveness" = true ∧
            goHasPrefix e2.Message "Liveness" = true))
    (hsplit : (goSplit e1.Message ": Get http://10.").headD "" =
              (goSplit e2.Message ": Get http://10.").headD "") :
    buildCachedEvent e1 = buildCachedEvent e2 ∧
    (buildCachedEvent ⟨⟨"ns1", "Pod", "app-1"⟩, "Unhealthy",
        "Readiness probe failed: Get http://10.1.2.3:8080/healthz: dial tcp: timeout", 5⟩ =
      buildCachedEvent ⟨⟨"ns1", "Pod", "app-1"⟩, "Unhealthy",
        "Readiness probe failed: Get http://10.9.9.9:9090/healthz: connection refused", 6⟩ ∧
     messageComponent
        "Readiness probe failed: Get http://10.1.2.3:8080/healthz: dial tcp: timeout" =
      "Readiness_probe_failed") := by
  constructor
  · have hb1 : goHasPrefix e1.Message "Readiness" = true ∨
        goHasPrefix e1.Message "Liveness" = true := by
      rcases hhc with ⟨ha, _⟩ | ⟨ha, _⟩
      · exact Or.inl ha
      · exact Or.inr ha
    have hb2 : goHasPrefix e2.Message "Readiness" = true ∨
        goHasPrefix e2.Message "Liveness" = true := by
      rcases hhc with ⟨_, hb⟩ | ⟨_, hb⟩
      · exact Or.inl hb
      · exact Or.inr hb
    rw [buildCachedEvent_health e1 hb1, buildCachedEvent_health e2 hb2, hns, hseg, hsplit]
  · exact ⟨by decide, by decide⟩

/-- Closed instance of `healthCheckTruncation` at the two concrete
Readiness-probe events. -/
theorem healthCheckTruncation_witness :
    buildCachedEvent ⟨⟨"ns1", "Pod", "app-1"⟩, "Unhealthy",
        "Readiness probe failed: Get http://10.1.2.3:8080/healthz: dial tcp: timeout", 5⟩ =
      buildCachedEvent ⟨⟨"ns1", "Pod", "app-1"⟩, "Unhealthy",
        "Readiness probe failed: Get http://10.9.9.9:9090/healthz: connection refused", 6⟩ :=
  (healthCheckTruncation
    ⟨⟨"ns1", "Pod", "app-1"⟩, "Unhealthy",
      "Readiness probe failed: Get http://10.1.2.3:8080/healthz: dial tcp: timeout", 5⟩
    ⟨⟨"ns1", "Pod", "app-1"⟩, "Unhealthy",
      "Readiness probe failed: Get http://10.9.9.9:9090/healthz: connection refused", 6⟩
    rfl (by decide) (Or.inl ⟨by decide, by decide⟩) (by decide)).1

/-- C4 counterexample: splitting "payments-api-7d8f9c-xk2pq" on "-" and
taking the first segment yields "payments", not "payments-api", and the
fingerprint's second component is accordingly "payments". -/
theorem workloadSegment_counterexample :
    containerName "payments-api-7d8f9c-xk2pq" = "payments" ∧
    containerName "payments-api-7d8f9c-xk2pq" ≠ "payments-api" ∧
    buildCachedEvent
        ⟨⟨"ns1", "Pod", "payments-api-7d8f9c-xk2pq"⟩, "Failed", "ImagePullBackOff", 1⟩ =
      "ns1_payments_ImagePullBackOff" := by
  exact ⟨by decide, by decide, by decide⟩

/-- C4 (amended): for subjectName "payments-api-7d8f9c-xk2pq" the second
joined component of the fingerprint is "payments", the segment before the
first hyphen. -/
theorem workloadSegmentExtraction :
    containerName "payments-api-7d8f9c-xk2pq" = "payments" ∧
    buildCachedEvent
        ⟨⟨"ns1", "Pod", "payments-api-7d8f9c-xk2pq"⟩, "Failed", "ImagePullBackOff", 1⟩ =
      "ns1_payments_ImagePullBackOff" := by
  exact ⟨by decide, by decide⟩

/-- C5: Stale-event suppression — an event whose FirstTimestamp is not
strictly after the recorded start time produces no effect at all (no
reducer call, no cache read or write, no notifier call) and leaves the
cache unchanged, at every position of every processing sequence. -/
theorem staleEventSuppression (startTime : Int) (e : Event)
    (h : ¬ startTime < e.FirstTimestamp) :
    (∀ cache, processEvent startTime cache e = (cache, [])) ∧
    (∀ before after cache,
      processAll startTime cache (before ++ e :: after) =
        processAll startTime cache (before ++ after)) := by
  constructor
  · intro cache
    exact processEvent_stale startTime cache e h
  · intro before
    induction before with
    | nil =>
      intro after cache
      simp [processAll_cons, processEvent_stale startTime cache e h]
    | cons p ps ih =>
      intro after cache
      simp only [List.cons_append, processAll_cons]
      rw [ih after]

/-- Closed instance of `staleEventSuppression` at a concrete stale
event. -/
theorem staleEventSuppression_witness :
    processEvent 0 none ⟨⟨"ns1", "Pod", "app-1"⟩, "Failed", "OOMKilled", 0⟩ = (none, []) :=
  (staleEventSuppression 0 ⟨⟨"ns1", "Pod", "app-1"⟩, "Failed", "OOMKilled", 0⟩
    (by decide)).1 none

/-- C6: Cache-contents invariant — along any processing sequence started
with an empty slot, the `last_slack_event` slot is absent or holds
exactly the fingerprint of the most recently notified event; every step
that notifies also overwrites the slot with that event's fingerprint in
the same step; and no step ever empties a non-empty slot. -/
theorem cacheContentsInvariant (startTime : Int) (events : List Event) :
    (processAll startTime none events).1 =
      Option.map buildCachedEvent (lastNotified (processAll startTime none events).2) ∧
    (∀ cache e, Effect.notify e ∈ (processEvent startTime cache e).2 →
      (processEvent startTime cache e).1 = some (buildCachedEvent e) ∧
      Effect.cacheSet (buildCachedEvent e) ∈ (processEvent startTime cache e).2) ∧
    (∀ cache e, (processEvent startTime cache e).1 = none → cache = none) := by
  refine ⟨?_, ?_, ?_⟩
  · rw [processAll_cache_lastNotified]
    cases lastNotified (processAll startTime none events).2 <;> rfl
  · intro cache e hmem
    by_cases h : startTime < e.FirstTimestamp
    · refine ⟨processEvent_pass_cache startTime cache e h, ?_⟩
      simp only [processEvent, if_pos h] at hmem ⊢
      cases cache with
      | none => simp
      | some m =>
        by_cases hm : m = buildCachedEvent e
        · simp [hm] at hmem
        · simp [hm]
    · rw [processEvent_stale startTime cache e h] at hmem
      simp at hmem
  · intro cache e hnone
    by_cases h : startTime < e.FirstTimestamp
    · rw [processEvent_pass_cache startTime cache e h] at hnone
      exact absurd hnone (by simp)
    · rw [processEvent_stale startTime cache e h] at hnone
      exact hnone

/-- Closed instance of `cacheContentsInvariant`: after one notified event
the slot holds exactly its fingerprint. -/
theorem cacheContentsInvariant_witness :
    (processAll 0 none [⟨⟨"ns1", "Pod", "app-1"⟩, "Failed", "OOMKilled", 1⟩]).1 =
      Option.map buildCachedEvent
        (lastNotified (processAll 0 none
          [⟨⟨"ns1", "Pod", "app-1"⟩, "Failed", "OOMKilled", 1⟩]).2) :=
  (cacheContentsInvariant 0 [⟨⟨"ns1", "Pod", "app-1"⟩, "Failed", "OOMKilled", 1⟩]).1

/-- C7: Reducer totality and graceful degradation — the reducer returns a
fingerprint for every event (the checked variant, which is `none` exactly
where Go's slice indexing would panic, always succeeds), and when a
health-check message does not contain the split literal the whole message
with spaces replaced by underscores is used as the message component. -/
theorem reducerTotality (e : Event)
    (hh : goHasPrefix e.Message "Readiness" = true ∨
          goHasPrefix e.Message "Liveness" = true)
    (habs : ¬ (": Get http://10.").data <:+: e.Message.data) :
    (∀ e' : Event, buildCachedEventChecked e' = some (buildCachedEvent e')) ∧
    buildCachedEvent e =
      e.InvolvedObject.Namespace ++ "_" ++ containerName e.InvolvedObject.Name ++ "_" ++
        goReplaceAll e.Message " " "_" := by
  constructor
  · intro f
    have h1 : (goSplit f.InvolvedObject.Name "-").head? =
        some (containerName f.InvolvedObject.Name) := by
      rw [containerName]
      exact head?_eq_headD _ "" (goSplit_ne_nil _ "-" (by decide))
    by_cases hb : (goHasPrefix f.Message "Readiness" || goHasPrefix f.Message "Liveness") = true
    · have h2 : (goSplit f.Message ": Get http://10.").head? =
          some ((goSplit f.Message ": Get http://10.").headD "") :=
        head?_eq_headD _ "" (goSplit_ne_nil _ ": Get http://10." (by decide))
      rw [buildCachedEventChecked, h1, h2]
      simp only [hb, if_true, buildCachedEvent, messageComponent]
    · rw [buildCachedEventChecked, h1]
      simp only [hb, Bool.false_eq_true, if_false, buildCachedEvent, messageComponent]
  · rw [buildCachedEvent_health e hh,
      goSplit_of_no_occurrence e.Message ": Get http://10." (by decide) habs]
    rfl

/-- Closed instance of `reducerTotality` at a Readiness message that does
not contain the split literal. -/
theorem reducerTotality_witness :
    buildCachedEvent ⟨⟨"ns1", "Pod", "app-1"⟩, "Unhealthy", "Readiness probe failed", 3⟩ =
      "ns1" ++ "_" ++ containerName "app-1" ++ "_" ++
        goReplaceAll "Readiness probe failed" " " "_" :=
  (reducerTotality ⟨⟨"ns1", "Pod", "app-1"⟩, "Unhealthy", "Readiness probe failed", 3⟩
    (Or.inl (by decide)) (by decide)).2

/-- C8 counterexample: when the watch-open call fails, `watchEvents` hits
`panic(err.Error())`; the retry driver in `main` has no recover, so the
pass ends in process termination, not in a 5-second-delayed
resubscription. -/
theorem subscriptionError_counterexample :
    driverStep (Except.error "connection refused") =
      DriverOutcome.processTerminated "connection refused" ∧
    DriverOutcome.processTerminated "connection refused" ≠
      DriverOutcome.resubscribeAfter 5 := by
  exact ⟨rfl, by decide⟩

/-- C8 (amended): when the event stream ends (channel close, covering
stream failure), `watchEvents` returns and the driver re-enters the
subscribe step after the fixed 5-second delay; but a failure of the
watch-open call itself panics and terminates the process. -/
theorem subscriptionOutcomes :
    (∀ events : List Event,
      driverStep (Except.ok events) = DriverOutcome.resubscribeAfter 5) ∧
    (∀ msg : String,
      driverStep (Except.error msg) = DriverOutcome.processTerminated msg) :=
  ⟨fun _ => rfl, fun _ => rfl⟩

/-- C9 counterexample: a failing payload serialization hits `panic(err)`
inside `notifySlack`; the call does not return normally to the watch
loop. -/
theorem notifierPanic_counterexample :
    notifySlack (MarshalResult.error "json: unsupported type")
        RequestResult.ok DoResult.ok =
      NotifyOutcome.panicked "json: unsupported type" ∧
    NotifyOutcome.panicked "json: unsupported type" ≠ NotifyOutcome.returned true ∧
    NotifyOutcome.panicked "json: unsupported type" ≠ NotifyOutcome.returned false := by
  exact ⟨rfl, by decide, by decide⟩

/-- C9 (amended): when serialization and request construction succeed,
`notifySlack` returns normally for every HTTP outcome — a transport
failure is only logged; but a serialization failure panics, and a failed
`http.NewRequest` is never checked, so the nil request is dereferenced
and the call panics. -/
theorem notifierOutcomes :
    (∀ payload : String,
      notifySlack (MarshalResult.ok payload) RequestResult.ok DoResult.ok =
        NotifyOutcome.returned false) ∧
    (∀ (payload msg : String),
      notifySlack (MarshalResult.ok payload) RequestResult.ok (DoResult.error msg) =
        NotifyOutcome.returned true) ∧
    (∀ (payload msg : String) (d : DoResult),
      notifySlack (MarshalResult.ok payload) (RequestResult.error msg) d =
        NotifyOutcome.panicked "invalid memory address or nil pointer dereference") ∧
    (∀ (msg : String) (r : RequestResult) (d : DoResult),
      notifySlack (MarshalResult.error msg) r d = NotifyOutcome.panicked msg) :=
  ⟨fun _ => rfl, fun _ _ => rfl, fun _ _ _ => rfl, fun _ _ _ => rfl⟩

/-- The `main.go` loop and the fingerprint loop take the same
notify-versus-suppress decisions along any event sequence whose events
all share one namespace and one first hyphen-segment and carry no
health-check message, whenever their caches are related by prepending
that shared namespace and segment. -/
theorem decisionsRelated (startTime : Int) (ns seg : String) :
    ∀ (events : List Event) (cm : Option String),
      (∀ e ∈ events, e.InvolvedObject.Namespace = ns) →
      (∀ e ∈ events, containerName e.InvolvedObject.Name = seg) →
      (∀ e ∈ events, goHasPrefix e.Message "Readiness" = false ∧
          goHasPrefix e.Message "Liveness" = false) →
      decisionsMain startTime cm events =
        decisionsPart startTime
          (Option.map (fun m => ns ++ "_" ++ seg ++ "_" ++ m) cm) events := by
  intro events
  induction events with
  | nil => intro cm _ _ _; rfl
  | cons e es ih =>
    intro cm hns hseg hmsg
    have hnse : e.InvolvedObject.Namespace = ns := hns e (List.mem_cons_self e es)
    have hsege : containerName e.InvolvedObject.Name = seg :=
      hseg e (List.mem_cons_self e es)
    have hmsge := hmsg e (List.mem_cons_self e es)
    have hns' : ∀ x ∈ es, x.InvolvedObject.Namespace = ns :=
      fun x hx => hns x (List.mem_cons_of_mem e hx)
    have hseg' : ∀ x ∈ es, containerName x.InvolvedObject.Name = seg :=
      fun x hx => hseg x (List.mem_cons_of_mem e hx)
    have hmsg' : ∀ x ∈ es, goHasPrefix x.Message "Readiness" = false ∧
        goHasPrefix x.Message "Liveness" = false :=
      fun x hx => hmsg x (List.mem_cons_of_mem e hx)
    have hfp : buildCachedEvent e = ns ++ "_" ++ seg ++ "_" ++ e.Message := by
      rw [buildCachedEvent_append e hmsge.1 hmsge.2, hnse, hsege]
    have hFinj : ∀ a b : String,
        ns ++ "_" ++ seg ++ "_" ++ a = ns ++ "_" ++ seg ++ "_" ++ b → a = b := by
      intro a b hab
      exact strAppendLeftCancel (ns ++ "_" ++ seg ++ "_") a b hab
    have key : ∀ c : Option String,
        stepNotifies (processEventMain startTime c e).2 =
          stepNotifies
            (processEvent startTime
              (Option.map (fun m => ns ++ "_" ++ seg ++ "_" ++ m) c) e).2 ∧
        (processEvent startTime
            (Option.map (fun m => ns ++ "_" ++ seg ++ "_" ++ m) c) e).1 =
          Option.map (fun m => ns ++ "_" ++ seg ++ "_" ++ m)
            (processEventMain startTime c e).1 := by
      intro c
      by_cases hpass : startTime < e.FirstTimestamp
      · cases c with
        | none =>
          constructor
          · simp [processEventMain, processEvent, hpass, stepNotifies]
          · simp [processEventMain, processEvent, hpass, hfp]
        | some m =>
          by_cases heq : m = e.Message
          · subst heq
            constructor
            · simp [processEventMain, processEvent, hpass, hfp, stepNotifies]
            · simp [processEventMain, processEvent, hpass, hfp]
          · have hne : ns ++ "_" ++ seg ++ "_" ++ m ≠ ns ++ "_" ++ seg ++ "_" ++ e.Message :=
              fun hx => heq (hFinj m e.Message hx)
            constructor
            · simp [processEventMain, processEvent, hpass, heq, hfp, hne, stepNotifies]
            · simp [processEventMain, processEvent, hpass, heq, hfp, hne]
      · constructor
        · rw [processEvent_stale _ _ _ hpass]
          cases c <;> simp [processEventMain, hpass, stepNotifies]
        · rw [processEvent_stale _ _ _ hpass]
          cases c <;> simp [processEventMain, hpass]
    simp only [decisionsMain, decisionsPart]
    rw [(key cm).1, (key cm).2,
      ih (processEventMain startTime cm e).1 hns' hseg' hmsg']

/-- C10 counterexample: two filtered events with the same message but
different namespaces — the `main.go` loop (raw-message cache) suppresses
the second, the fingerprint loop notifies on it, so the two listings do
not make the same decisions. -/
theorem loopsEquivalence_counterexample :
    decisionsMain 0 none
        [⟨⟨"ns1", "Pod", "web-1"⟩, "Failed", "ImagePullBackOff", 1⟩,
         ⟨⟨"ns2", "Pod", "db-1"⟩, "Failed", "ImagePullBackOff", 2⟩] = [true, false] ∧
    decisionsPart 0 none
        [⟨⟨"ns1", "Pod", "web-1"⟩, "Failed", "ImagePullBackOff", 1⟩,
         ⟨⟨"ns2", "Pod", "db-1"⟩, "Failed", "ImagePullBackOff", 2⟩] = [true, true] ∧
    ([true, false] : List Bool) ≠ [true, true] := by
  exact ⟨by decide, by decide, by decide⟩

/-- C10 (amended): starting from an empty cache, the two listings make the
same notify-versus-suppress decision at every step for sequences of
events that share one namespace and one first hyphen-segment of the
subject name and whose messages are not health-check messages; in general
the decisions differ (`loopsEquivalence_counterexample`). -/
theorem loopsEquivalenceRestricted (startTime : Int) (ns seg : String)
    (events : List Event)
    (hns : ∀ e ∈ events, e.InvolvedObject.Namespace = ns)
    (hseg : ∀ e ∈ events, containerName e.InvolvedObject.Name = seg)
    (hmsg : ∀ e ∈ events, goHasPrefix e.Message "Readiness" = false ∧
        goHasPrefix e.Message "Liveness" = false) :
    decisionsMain startTime none events = decisionsPart startTime none events := by
  have h := decisionsRelated startTime ns seg events none hns hseg hmsg
  simpa using h

/-- Closed instance of `loopsEquivalenceRestricted` on a two-event
sequence within one workload. -/
theorem loopsEquivalenceRestricted_witness :
    decisionsMain 0 none
        [⟨⟨"ns1", "Pod", "app-1"⟩, "Failed", "ImagePullBackOff", 1⟩,
         ⟨⟨"ns1", "Pod", "app-2"⟩, "Failed", "OOMKilled", 2⟩] =
      decisionsPart 0 none
        [⟨⟨"ns1", "Pod", "app-1"⟩, "Failed", "ImagePullBackOff", 1⟩,
         ⟨⟨"ns1", "Pod", "app-2"⟩, "Failed", "OOMKilled", 2⟩] :=
  loopsEquivalenceRestricted 0 "ns1" "app"
    [⟨⟨"ns1", "Pod", "app-1"⟩, "Failed", "ImagePullBackOff", 1⟩,
     ⟨⟨"ns1", "Pod", "app-2"⟩, "Failed", "OOMKilled", 2⟩]
    (by decide) (by decide) (by decide)
